import Mathlib

/-!
Verification of the Amp routing module of ai-cli-proxy-api.

The development shallowly embeds the Go source:
  internal/api/modules/amp/proxy.go   (reverse proxy: director, response
    normalizer, streaming classification, error handler)
  internal/api/modules/amp (module lifecycle: Register, OnConfigUpdated)
  sdk/api/handlers/openai (resolveEndpointOverride, endpointListContains)

Byte strings are lists of natural numbers below 256; HTTP headers are
modelled field by field for responses and as association lists for
requests.  External collaborators of the code under test (the Go
standard library gzip codec, the net/url parser, the model registry and
the thinking-suffix parser) are modelled explicitly where their behavior
decides a property, and passed as parameters where only their interface
matters.
-/

/-! ## Go string primitives used by the source -/

/-- Model of the prefix test underlying Go strings.HasPrefix, on char lists. -/
def hasPrefixL : List Char → List Char → Bool
  | [], _ => true
  | _ :: _, [] => false
  | p :: ps, c :: cs => (p == c) && hasPrefixL ps cs

/-- Model of Go strings.Contains: does the needle occur inside the haystack. -/
def containsSubL (needle : List Char) : List Char → Bool
  | [] => needle.isEmpty
  | c :: rest => hasPrefixL needle (c :: rest) || containsSubL needle rest

/-- Model of Go strings.Contains on strings. -/
def goContains (s substr : String) : Bool :=
  containsSubL substr.toList s.toList

/-- ASCII fragment of Go strings.ToLower; every string the source lowercases
here is ASCII (header values such as Transfer-Encoding tokens). -/
def goToLower (s : String) : String :=
  String.mk (s.toList.map (fun c =>
    if 'A' ≤ c ∧ c ≤ 'Z' then Char.ofNat (c.toNat + 32) else c))

/-- Whitespace predicate of Go unicode.IsSpace restricted to the Latin-1
range, which is the fragment strings.TrimSpace exercises on the
configuration values that appear in this module. -/
def goIsSpace (c : Char) : Bool :=
  c == ' ' || c == '\t' || c == '\n' || c.toNat == 0x0B ||
  c.toNat == 0x0C || c == '\r' || c.toNat == 0x85 || c.toNat == 0xA0

/-- Model of Go strings.TrimSpace. -/
def goTrimSpace (s : String) : String :=
  String.mk (((s.toList.dropWhile goIsSpace).reverse.dropWhile goIsSpace).reverse)

/-! ## Capability resolver (sdk/api/handlers/openai/endpoint_compat.go)

The capability registry is an external read-only collaborator of
resolveEndpointOverride, so the lookup GetGlobalRegistry().GetModelInfo
is passed as a function parameter, as is the suffix parser of the
thinking package.  -/

/-- Capability descriptor of a model: registry.ModelInfo restricted to the
fields read by resolveEndpointOverride. -/
structure ModelInfo where
  id : String
  supportedEndpoints : List String
deriving DecidableEq

/-- Endpoint constant openAIChatEndpoint of the source. -/
def openAIChatEndpoint : String := "/chat/completions"

/-- Endpoint constant openAIResponsesEndpoint of the source. -/
def openAIResponsesEndpoint : String := "/responses"

/-- Model of endpointListContains: linear scan with exact string equality. -/
def endpointListContains : List String → String → Bool
  | [], _ => false
  | item :: rest, value => if item = value then true else endpointListContains rest value

/-- The model-info lookup chain of resolveEndpointOverride: exact lookup
first, then one retry on the suffix-stripped base name when the base is
nonempty and differs from the original name. -/
def resolvedInfo (getModelInfo : String → Option ModelInfo)
    (parseSuffixBase : String → String) (modelName : String) : Option ModelInfo :=
  match getModelInfo modelName with
  | some info => some info
  | none =>
      let baseModel := parseSuffixBase modelName
      if baseModel ≠ "" ∧ baseModel ≠ modelName then getModelInfo baseModel else none

/-- Tail of resolveEndpointOverride after the lookup chain: the supported
check and the fixed two-way chat/responses compatibility mapping. -/
def overrideForInfo : Option ModelInfo → String → String × Bool
  | none, _ => ("", false)
  | some info, requestedEndpoint =>
    if info.supportedEndpoints.length = 0 then ("", false)
    else if endpointListContains info.supportedEndpoints requestedEndpoint then ("", false)
    else if requestedEndpoint = openAIChatEndpoint ∧
        endpointListContains info.supportedEndpoints openAIResponsesEndpoint then
      (openAIResponsesEndpoint, true)
    else if requestedEndpoint = openAIResponsesEndpoint ∧
        endpointListContains info.supportedEndpoints openAIChatEndpoint then
      (openAIChatEndpoint, true)
    else ("", false)

/-- Model of resolveEndpointOverride, parameterized by the external registry
lookup and suffix parser. -/
def resolveEndpointOverride (getModelInfo : String → Option ModelInfo)
    (parseSuffixBase : String → String)
    (modelName requestedEndpoint : String) : String × Bool :=
  if modelName = "" then ("", false)
  else overrideForInfo (resolvedInfo getModelInfo parseSuffixBase modelName) requestedEndpoint

/-- Suffix test underlying the parser model below. -/
def isSuffixOfL (s l : List Char) : Bool :=
  hasPrefixL s.reverse l.reverse

/-- Reasoning-effort qualifiers recognized by the suffix parser model. -/
def reasoningEffortLevels : List String := ["minimal", "low", "medium", "high"]

/-- Modelled from the spec: thinking.ParseSuffix of package internal/thinking
is not included under src; per the spec it strips any recognized modifier
suffix, e.g. a trailing reasoning-effort qualifier in parentheses, returning
the base model name, and leaves unrecognized identifiers unchanged. -/
def parseSuffixModelName (modelName : String) : String :=
  match reasoningEffortLevels.find?
      (fun lvl => isSuffixOfL ("(" ++ lvl ++ ")").toList modelName.toList) with
  | some lvl =>
      String.mk (modelName.toList.take (modelName.toList.length - (lvl.toList.length + 2)))
  | none => modelName

/-! ## Model of Go net/url Parse

The createReverseProxy constructor delegates address validation entirely
to url.Parse of the Go standard library, so the parser is modelled here
(restricted to Parse with viaRequest false, the call the source makes).
The model reproduces the decision structure of net/url: control-character
rejection, scheme extraction, query and fragment splitting, the opaque
rootless-path case, the colon check on the first path segment of
scheme-less addresses, authority splitting with host, port, userinfo and
percent-escape validation.  Decoded path and query contents, which the
source never inspects, are stored raw. -/

/-- Control-byte test of net/url stringContainsCTLByte. -/
def isCTL (c : Char) : Bool := c.toNat < 0x20 || c.toNat == 0x7F

/-- Model of net/url stringContainsCTLByte. -/
def stringContainsCTLByte (s : String) : Bool := s.toList.any isCTL

/-- Scheme letter: ASCII letter. -/
def isSchemeLetter (c : Char) : Bool :=
  ('a' ≤ c && c ≤ 'z') || ('A' ≤ c && c ≤ 'Z')

/-- Scheme continuation character: digit, plus, minus or dot. -/
def isSchemeCont (c : Char) : Bool :=
  ('0' ≤ c && c ≤ '9') || c == '+' || c == '-' || c == '.'

/-- Model of net/url getScheme: walks the raw URL looking for a scheme
terminated by a colon.  Returns none for the missing-protocol-scheme
error (a colon as very first character); otherwise the scheme (possibly
empty) and the remainder. -/
def getSchemeAux (orig : List Char) : List Char → List Char → Bool → Option (String × List Char)
  | [], _acc, _first => some ("", orig)
  | c :: cs, acc, first =>
      if isSchemeLetter c then getSchemeAux orig cs (acc ++ [c]) false
      else if isSchemeCont c then
        if first then some ("", orig) else getSchemeAux orig cs (acc ++ [c]) false
      else if c == ':' then
        if first then none else some (String.mk acc, cs)
      else some ("", orig)

/-- Split a char list at the first occurrence of a separator, dropping the
separator; none when absent (the two-result shape of Go strings.Cut). -/
def splitFirstOpt (l : List Char) (c : Char) : Option (List Char × List Char) :=
  match l with
  | [] => none
  | x :: rest =>
      if x == c then some ([], rest)
      else (splitFirstOpt rest c).map (fun p => (x :: p.1, p.2))

/-- Split a char list at the first occurrence of a separator, keeping the
separator at the head of the second part, as in slicing at strings.Index. -/
def splitAtFirstKeep (l : List Char) (c : Char) : List Char × List Char :=
  match l with
  | [] => ([], [])
  | x :: rest =>
      if x == c then ([], x :: rest)
      else
        let p := splitAtFirstKeep rest c
        (x :: p.1, p.2)

/-- Split a char list at the last occurrence of a separator, dropping the
separator; none when absent (slicing at strings.LastIndex). -/
def splitLastChar (l : List Char) (c : Char) : Option (List Char × List Char) :=
  match splitFirstOpt l.reverse c with
  | none => none
  | some (afterRev, beforeRev) => some (beforeRev.reverse, afterRev.reverse)

/-- Hexadecimal digit test of net/url ishex. -/
def isHexChar (c : Char) : Bool :=
  c.isDigit || ('a' ≤ c && c ≤ 'f') || ('A' ≤ c && c ≤ 'F')

/-- Well-formedness of percent escapes, the error condition of net/url
unescape: every percent sign must be followed by two hex digits. -/
def validPercentEscapes : List Char → Bool
  | [] => true
  | '%' :: a :: b :: rest => isHexChar a && isHexChar b && validPercentEscapes rest
  | '%' :: _ => false
  | _ :: rest => validPercentEscapes rest

/-- Model of net/url validUserinfo: unreserved characters, sub-delimiters,
colon, percent and at sign. -/
def validUserinfoChar (c : Char) : Bool :=
  c.isAlpha || c.isDigit ||
  ['-', '.', '_', ':', '~', '!', '$', '&', '\'', '(', ')', '*', '+', ',',
   ';', '=', '%', '@'].contains c

/-- Host characters net/url accepts unescaped: alphanumerics, unreserved
marks, sub-delimiters and the bracket family; non-ASCII bytes pass, and
percent signs are checked by the escape validator. -/
def validHostChar (c : Char) : Bool :=
  c.isAlpha || c.isDigit || c.toNat ≥ 0x80 || c == '%' ||
  ['-', '_', '.', '~', '!', '$', '&', '\'', '(', ')', '*', '+', ',',
   ';', '=', ':', '[', ']', '<', '>', '"'].contains c

/-- Model of net/url validOptionalPort on the characters after the last
colon: empty, or all digits. -/
def validPortDigits (port : List Char) : Bool := port.all Char.isDigit

/-- Model of net/url parseHost: bracketed hosts need a closing bracket and a
valid optional port; plain hosts need a valid optional port after the last
colon, valid percent escapes and host-safe characters. -/
def parseHostOk (host : List Char) : Bool :=
  if hasPrefixL ['['] host then
    match splitLastChar host ']' with
    | none => false
    | some (_, colonPort) =>
        colonPort.isEmpty ||
        (hasPrefixL [':'] colonPort && validPortDigits (colonPort.drop 1))
  else
    (match splitLastChar host ':' with
     | none => true
     | some (_, port) => validPortDigits port) &&
    validPercentEscapes host && host.all validHostChar

/-- Model of net/url parseAuthority: host validation after the last at sign,
then userinfo validation; yields the host component. -/
def parseAuthority (authority : List Char) : Option String :=
  match splitLastChar authority '@' with
  | none => if parseHostOk authority then some (String.mk authority) else none
  | some (userinfo, hostL) =>
      if parseHostOk hostL then
        if validPercentEscapes userinfo && userinfo.all validUserinfoChar then
          some (String.mk hostL)
        else none
      else none

/-- Result type of the URL parser model: the fields of net/url URL the
source reads, with raw (undecoded) path storage. -/
structure GoURL where
  scheme : String := ""
  opaquePart : String := ""
  host : String := ""
  path : String := ""
  rawQuery : String := ""
  fragment : String := ""
  forceQuery : Bool := false
deriving DecidableEq

/-- Query splitting of net/url parse: a single trailing question mark sets
ForceQuery, otherwise the remainder is cut at the first question mark. -/
def cutQuery (l : List Char) : List Char × String × Bool :=
  if isSuffixOfL ['?'] l && !(l.dropLast.contains '?') then (l.dropLast, "", true)
  else
    match splitFirstOpt l '?' with
    | some (before, after) => (before, String.mk after, false)
    | none => (l, "", false)

/-- Authority and path phase of net/url parse: consume a double-slash
authority when present, validate it, then validate the path escapes. -/
def parseTail (scheme : String) (restL : List Char) (rawQuery : String)
    (forceQuery : Bool) : Option GoURL :=
  if (!(scheme == "") || !(hasPrefixL ['/', '/', '/'] restL)) &&
      hasPrefixL ['/', '/'] restL then
    let p := splitAtFirstKeep (restL.drop 2) '/'
    match parseAuthority p.1 with
    | none => none
    | some host =>
        if validPercentEscapes p.2 then
          some { scheme := scheme, host := host, path := String.mk p.2,
                 rawQuery := rawQuery, forceQuery := forceQuery }
        else none
  else
    if validPercentEscapes restL then
      some { scheme := scheme, path := String.mk restL,
             rawQuery := rawQuery, forceQuery := forceQuery }
    else none

/-- Model of net/url parse with viaRequest false: control-byte check, the
star special case, scheme extraction, query split, the opaque rootless
case, the first-segment colon check, then authority and path. -/
def parseCore (rawURL : String) : Option GoURL :=
  if stringContainsCTLByte rawURL then none
  else if rawURL = "*" then some { path := "*" }
  else
    match getSchemeAux rawURL.toList rawURL.toList [] true with
    | none => none
    | some (scheme0, rest0) =>
      let scheme := goToLower scheme0
      let q := cutQuery rest0
      if hasPrefixL ['/'] q.1 then parseTail scheme q.1 q.2.1 q.2.2
      else if scheme ≠ "" then
        some { scheme := scheme, opaquePart := String.mk q.1,
               rawQuery := q.2.1, forceQuery := q.2.2 }
      else if (splitAtFirstKeep q.1 '/').1.contains ':' then none
      else parseTail "" q.1 q.2.1 q.2.2

/-- Model of net/url Parse: cut the fragment, run the core parser, then
validate the fragment escapes. -/
def parseURL (rawURL : String) : Option GoURL :=
  match splitFirstOpt rawURL.toList '#' with
  | none => parseCore rawURL
  | some (before, frag) =>
      match parseCore (String.mk before) with
      | none => none
      | some url =>
          if frag.isEmpty then some url
          else if validPercentEscapes frag then
            some { url with fragment := String.mk frag }
          else none

/-- Absoluteness in the sense of net/url URL IsAbs: the parse succeeds and
yields a nonempty scheme. -/
def isAbsoluteURL (s : String) : Bool :=
  match parseURL s with
  | some u => !(u.scheme == "")
  | none => false

/-! ## Proxy transform pipeline (internal/api/modules/amp/proxy.go) -/

/-- Response headers read or written by the normalizer, with Go
http.Header.Get semantics: an absent Content-Encoding or Content-Length
reads as the empty string. -/
structure RespHeaders where
  contentType : String := ""
  transferEncoding : String := ""
  contentEncoding : Option String := none
  contentLength : Option String := none
deriving DecidableEq

/-- Model of http.Response restricted to the fields the normalizer touches. -/
structure Response where
  statusCode : Int
  headers : RespHeaders
  body : List Nat
  contentLength : Int
deriving DecidableEq

/-- Header.Get of Content-Encoding: the empty string when absent. -/
def respContentEncoding (resp : Response) : String :=
  resp.headers.contentEncoding.getD ""

/-- Model of isStreamingResponse, lines 283 to 298 of the source: a
Content-Type containing text/event-stream, or a Transfer-Encoding whose
lowercasing contains chunked.  The content-type test is a case-sensitive
substring match; only the transfer-encoding test lowercases its value. -/
def isStreamingResponse (resp : Response) : Bool :=
  if goContains resp.headers.contentType "text/event-stream" then true
  else if goContains (goToLower resp.headers.transferEncoding) "chunked" then true
  else false

/-- Model of the isStreamingResponse revision at lines 132 to 145 of the
source, which deliberately treats only server-sent events as streaming and
lets chunked transfer-encoding through to the decompression path.  The
spec adopts the broader rule above, which the test suite enforces. -/
def isStreamingResponseSSEOnly (resp : Response) : Bool :=
  if goContains resp.headers.contentType "text/event-stream" then true
  else false

/-- The two bytes io.ReadFull places in the peek buffer: at most two, fewer
when the body ends early. -/
def peekedHeader (body : List Nat) : List Nat := body.take (min 2 body.length)

/-- The bytes remaining in the body after the two-byte peek. -/
def peekedRest (body : List Nat) : List Nat := body.drop (min 2 body.length)

/-- The gzip magic test of the normalizer: at least two bytes were read and
they are 0x1F 0x8B. -/
def gzipMagicDetected (body : List Nat) : Bool :=
  decide (2 ≤ min 2 body.length) &&
  ((peekedHeader body).getD 0 0 == 0x1F) &&
  ((peekedHeader body).getD 1 0 == 0x8B)

/-- Model of proxy.ModifyResponse, lines 50 to 119 of the source.  The gzip
codec of the standard library is the parameter gunzip, returning none on
any decompression failure.  Guards in source order: non-2xx, declared
Content-Encoding and streaming responses pass through; otherwise two bytes
are peeked, a non-magic or short body is reconstructed unchanged from the
peeked bytes and the remainder, and a magic body is fully read and
decompressed, replacing body, content length and the two headers on
success and restoring the original compressed bytes on failure. -/
def modifyResponse (gunzip : List Nat → Option (List Nat)) (resp : Response) : Response :=
  if resp.statusCode < 200 ∨ 300 ≤ resp.statusCode then resp
  else if respContentEncoding resp ≠ "" then resp
  else if isStreamingResponse resp then resp
  else if gzipMagicDetected resp.body then
    match gunzip (peekedHeader resp.body ++ peekedRest resp.body) with
    | none => { resp with body := peekedHeader resp.body ++ peekedRest resp.body }
    | some decompressed =>
        { resp with
            body := decompressed,
            contentLength := (decompressed.length : Int),
            headers := { resp.headers with
                           contentEncoding := none,
                           contentLength := some (toString (decompressed.length : Int)) } }
  else
    { resp with body := peekedHeader resp.body ++ peekedRest resp.body }

/-- Model of the ModifyResponse revision at lines 201 to 270 of the source,
which peeks through an io.TeeReader into a buffer and then reads the rest
of the body through the same tee: after the full read the buffer holds the
whole body, so appending the post-peek remainder to the buffer duplicates
every byte after the first two.  It also leaves the Content-Length header
untouched on success. -/
def modifyResponseTee (gunzip : List Nat → Option (List Nat)) (resp : Response) : Response :=
  if resp.statusCode < 200 ∨ 300 ≤ resp.statusCode then resp
  else if respContentEncoding resp ≠ "" then resp
  else if isStreamingResponse resp then resp
  else if gzipMagicDetected resp.body then
    match gunzip (resp.body ++ peekedRest resp.body) with
    | none => { resp with body := resp.body ++ peekedRest resp.body }
    | some decompressed =>
        { resp with
            body := decompressed,
            contentLength := (decompressed.length : Int),
            headers := { resp.headers with contentEncoding := none } }
  else
    { resp with body := peekedHeader resp.body ++ peekedRest resp.body }

/-! ## Outbound director -/

/-- Request headers as an association list; presence of a key models
presence of the header, matching the map representation of http.Header. -/
def hGet : List (String × String) → String → Option String
  | [], _ => none
  | (k0, v) :: rest, k => if k0 = k then some v else hGet rest k

/-- Removal of every entry of a key, the replacement half of Header.Set. -/
def hRemove : List (String × String) → String → List (String × String)
  | [], _ => []
  | (k0, v) :: rest, k =>
      if k0 = k then hRemove rest k else (k0, v) :: hRemove rest k

/-- Model of http.Header.Set: the key now maps to exactly this value. -/
def hSet (hs : List (String × String)) (k v : String) : List (String × String) :=
  (k, v) :: hRemove hs k

/-- Model of http.Request restricted to what the director touches. -/
structure Request where
  host : String
  headers : List (String × String)
deriving DecidableEq

/-- Model of the proxy director, lines 30 to 46 of the source: rewrite the
target host to the parsed upstream host, then consult the secret source;
a successful nonempty credential sets the raw-key and bearer headers, an
empty credential or a resolver error leaves the headers alone and the
request proceeds. -/
def director (parsedHost : String) (secretGet : Except String String)
    (req : Request) : Request :=
  let req1 : Request := { req with host := parsedHost }
  match secretGet with
  | Except.ok key =>
      if key ≠ "" then
        { req1 with headers := (hSet (hSet req1.headers "X-Api-Key" key)
            "Authorization" ("Bearer " ++ key)) }
      else req1
  | Except.error _ => req1

/-! ## Proxy construction and module lifecycle -/

/-- Model of createReverseProxy, lines 20 to 26 of the source: url.Parse
decides success; the parsed URL stands for the constructed proxy instance
(its host feeds the director). -/
def createReverseProxy (upstreamURL : String) : Except String GoURL :=
  match parseURL upstreamURL with
  | none => Except.error "invalid amp upstream url"
  | some parsed => Except.ok parsed

/-- Success test on the constructor result. -/
def createOk : Except String GoURL → Bool
  | Except.ok _ => true
  | Except.error _ => false

/-- Configuration fields the module reads. -/
structure Config where
  ampUpstreamURL : String
  ampUpstreamAPIKey : String
deriving DecidableEq

/-- Module state: enabled flag, the secret source configuration value once
constructed, and the proxy instance once constructed. -/
structure AmpModule where
  enabled : Bool
  secretSource : Option String
  proxy : Option GoURL
deriving DecidableEq

/-- A freshly constructed module as returned by New: disabled, nothing
built yet. -/
def ampNew : AmpModule := { enabled := false, secretSource := none, proxy := none }

/-- The two route groups Register wires on success. -/
inductive RouteGroup where
  | management
  | providerAliases
deriving DecidableEq

/-- Model of AmpModule.Register: trim the configured upstream address; an
empty result disables the module and succeeds with no routes; otherwise
the secret source is built, and proxy construction either fails (error
returned, no routes, enabled flag untouched) or succeeds (module enabled,
both route groups registered). -/
def Register (m : AmpModule) (cfg : Config) : AmpModule × List RouteGroup × Option String :=
  let upstreamURL := goTrimSpace cfg.ampUpstreamURL
  if upstreamURL = "" then
    ({ m with enabled := false }, [], none)
  else
    let m1 : AmpModule := { m with secretSource := some cfg.ampUpstreamAPIKey }
    match createReverseProxy upstreamURL with
    | Except.error e => (m1, [], some ("failed to create amp proxy: " ++ e))
    | Except.ok parsed =>
        ({ m1 with proxy := some parsed, enabled := true },
         [RouteGroup.management, RouteGroup.providerAliases], none)

/-! ## Theorems: capability resolver -/

/-- A successful membership scan implies a nonempty endpoint list. -/
theorem endpointListContains_length_pos {l : List String} {v : String}
    (h : endpointListContains l v = true) : l.length ≠ 0 := by
  cases l with
  | nil => simp [endpointListContains] at h
  | cons a rest => simp

/-- With a direct registry hit the override computation reduces to the
supported-endpoint check and the fixed mapping. -/
theorem resolveEndpointOverride_direct_hit
    (getModelInfo : String → Option ModelInfo) (parseSuffixBase : String → String)
    (modelName requestedEndpoint : String) (info : ModelInfo)
    (hname : modelName ≠ "") (hreg : getModelInfo modelName = some info) :
    resolveEndpointOverride getModelInfo parseSuffixBase modelName requestedEndpoint
      = overrideForInfo (some info) requestedEndpoint := by
  unfold resolveEndpointOverride resolvedInfo
  rw [if_neg hname, hreg]

/-- C6: resolveEndpointOverride implements exactly the two-way compatibility
mapping.  When the resolved model supports the requested endpoint there is
no override; when the chat-completion shape is requested and only the
responses shape is supported the result is the responses shape with
applies true, and symmetrically; every other mismatch yields no
override. -/
theorem resolveEndpointOverride_compat_mapping
    (getModelInfo : String → Option ModelInfo) (parseSuffixBase : String → String)
    (modelName requestedEndpoint : String) (info : ModelInfo)
    (hname : modelName ≠ "") (hreg : getModelInfo modelName = some info) :
    (endpointListContains info.supportedEndpoints requestedEndpoint = true →
      resolveEndpointOverride getModelInfo parseSuffixBase modelName requestedEndpoint
        = ("", false)) ∧
    (endpointListContains info.supportedEndpoints requestedEndpoint = false →
      requestedEndpoint = openAIChatEndpoint →
      endpointListContains info.supportedEndpoints openAIResponsesEndpoint = true →
      resolveEndpointOverride getModelInfo parseSuffixBase modelName requestedEndpoint
        = (openAIResponsesEndpoint, true)) ∧
    (endpointListContains info.supportedEndpoints requestedEndpoint = false →
      requestedEndpoint = openAIResponsesEndpoint →
      endpointListContains info.supportedEndpoints openAIChatEndpoint = true →
      resolveEndpointOverride getModelInfo parseSuffixBase modelName requestedEndpoint
        = (openAIChatEndpoint, true)) ∧
    (endpointListContains info.supportedEndpoints requestedEndpoint = false →
      (requestedEndpoint = openAIChatEndpoint →
        endpointListContains info.supportedEndpoints openAIResponsesEndpoint = false) →
      (requestedEndpoint = openAIResponsesEndpoint →
        endpointListContains info.supportedEndpoints openAIChatEndpoint = false) →
      resolveEndpointOverride getModelInfo parseSuffixBase modelName requestedEndpoint
        = ("", false)) := by
  have hres := resolveEndpointOverride_direct_hit getModelInfo parseSuffixBase
    modelName requestedEndpoint info hname hreg
  refine ⟨?_, ?_, ?_, ?_⟩
  · intro hc
    rw [hres]
    simp only [overrideForInfo]
    rw [if_neg (endpointListContains_length_pos hc), if_pos hc]
  · intro hc hep hresp
    rw [hres]
    simp only [overrideForInfo]
    rw [if_neg (endpointListContains_length_pos hresp), if_neg (by simp [hc]),
        if_pos ⟨hep, hresp⟩]
  · intro hc hep hchat
    rw [hres]
    simp only [overrideForInfo]
    rw [if_neg (endpointListContains_length_pos hchat), if_neg (by simp [hc]),
        if_neg (by rintro ⟨h1, _⟩; rw [hep] at h1; exact absurd h1 (by decide)),
        if_pos ⟨hep, hchat⟩]
  · intro hc hnoresp hnochat
    rw [hres]
    simp only [overrideForInfo]
    by_cases hlen : info.supportedEndpoints.length = 0
    · rw [if_pos hlen]
    · rw [if_neg hlen, if_neg (by simp [hc]),
          if_neg (by rintro ⟨h1, h2⟩; rw [hnoresp h1] at h2; exact absurd h2 (by decide)),
          if_neg (by rintro ⟨h1, h2⟩; rw [hnochat h1] at h2; exact absurd h2 (by decide))]

/-- Demonstration registry: one model supporting only the responses shape. -/
def demoRespRegistry : String → Option ModelInfo := fun name =>
  if name = "demo-resp" then
    some { id := "demo-resp", supportedEndpoints := [openAIResponsesEndpoint] }
  else none

/-- Witness for C6 at a concrete registry: a chat-completion request against
a responses-only model is overridden to the responses shape. -/
theorem resolveEndpointOverride_compat_mapping_witness :
    resolveEndpointOverride demoRespRegistry parseSuffixModelName
      "demo-resp" openAIChatEndpoint = (openAIResponsesEndpoint, true) := by
  have h := resolveEndpointOverride_compat_mapping demoRespRegistry parseSuffixModelName
    "demo-resp" openAIChatEndpoint
    { id := "demo-resp", supportedEndpoints := [openAIResponsesEndpoint] }
    (by decide) (by rfl)
  exact h.2.1 (by decide) rfl (by decide)

/-- C7: when the exact identifier misses the registry and the suffix parser
yields a nonempty base different from the identifier, the override is
computed from the base identifier descriptor; an empty model name always
yields no override. -/
theorem resolveEndpointOverride_suffix_retry
    (getModelInfo : String → Option ModelInfo) (parseSuffixBase : String → String)
    (modelName requestedEndpoint : String) :
    (modelName = "" →
      resolveEndpointOverride getModelInfo parseSuffixBase modelName requestedEndpoint
        = ("", false)) ∧
    (modelName ≠ "" → getModelInfo modelName = none →
      parseSuffixBase modelName ≠ "" → parseSuffixBase modelName ≠ modelName →
      resolveEndpointOverride getModelInfo parseSuffixBase modelName requestedEndpoint
        = overrideForInfo (getModelInfo (parseSuffixBase modelName)) requestedEndpoint) := by
  constructor
  · intro h
    unfold resolveEndpointOverride
    rw [if_pos h]
  · intro h1 h2 h3 h4
    unfold resolveEndpointOverride resolvedInfo
    rw [if_neg h1, h2]
    simp only
    rw [if_pos ⟨h3, h4⟩]

/-- Demonstration registry: only the base identifier is registered, and it
supports only the chat-completion shape. -/
def demoChatRegistry : String → Option ModelInfo := fun name =>
  if name = "demo-chat" then
    some { id := "demo-chat", supportedEndpoints := [openAIChatEndpoint] }
  else none

/-- Witness for C7: a suffixed identifier resolves through its base and is
overridden from the responses shape to the chat-completion shape. -/
theorem resolveEndpointOverride_suffix_retry_witness :
    resolveEndpointOverride demoChatRegistry parseSuffixModelName
      "demo-chat(high)" openAIResponsesEndpoint = (openAIChatEndpoint, true) := by
  have h := (resolveEndpointOverride_suffix_retry demoChatRegistry parseSuffixModelName
    "demo-chat(high)" openAIResponsesEndpoint).2
    (by decide) (by rfl) (by decide) (by decide)
  rw [h]
  decide

/-- C10: invariant of resolveEndpointOverride.  Every result is either the
empty no-override pair, or a pair of one of the two known endpoint shapes
with applies true, different from the requested endpoint and contained in
the resolved descriptor supported list. -/
theorem resolveEndpointOverride_invariant
    (getModelInfo : String → Option ModelInfo) (parseSuffixBase : String → String)
    (modelName requestedEndpoint : String) :
    resolveEndpointOverride getModelInfo parseSuffixBase modelName requestedEndpoint
      = ("", false) ∨
    ∃ info e, resolvedInfo getModelInfo parseSuffixBase modelName = some info ∧
      resolveEndpointOverride getModelInfo parseSuffixBase modelName requestedEndpoint
        = (e, true) ∧
      (e = openAIChatEndpoint ∨ e = openAIResponsesEndpoint) ∧
      e ≠ requestedEndpoint ∧
      endpointListContains info.supportedEndpoints e = true := by
  unfold resolveEndpointOverride
  by_cases hname : modelName = ""
  · rw [if_pos hname]; exact Or.inl rfl
  · rw [if_neg hname]
    cases hinfo : resolvedInfo getModelInfo parseSuffixBase modelName with
    | none => exact Or.inl rfl
    | some info =>
      simp only [overrideForInfo]
      split_ifs with h1 h2 h3 h4
      · exact Or.inl rfl
      · exact Or.inl rfl
      · refine Or.inr ⟨info, openAIResponsesEndpoint, rfl, rfl, Or.inr rfl, ?_, h3.2⟩
        rw [h3.1]
        decide
      · refine Or.inr ⟨info, openAIChatEndpoint, rfl, rfl, Or.inl rfl, ?_, h4.2⟩
        rw [h4.1]
        decide
      · exact Or.inl rfl

/-! ## Theorems: response normalizer -/

/-- Reconstructing the peeked bytes followed by the remainder restores the
original body. -/
theorem peeked_append (body : List Nat) : peekedHeader body ++ peekedRest body = body :=
  List.take_append_drop _ _

/-- The magic test succeeds exactly when the first two bytes exist and are
the gzip magic pair. -/
theorem gzipMagicDetected_iff (body : List Nat) :
    gzipMagicDetected body = true ↔ body.take 2 = [0x1F, 0x8B] := by
  cases body with
  | nil => simp [gzipMagicDetected, peekedHeader]
  | cons a t =>
    cases t with
    | nil => simp [gzipMagicDetected, peekedHeader]
    | cons b t2 =>
      have hmin : min 2 (a :: b :: t2).length = 2 := by
        simp [List.length_cons]
      simp [gzipMagicDetected, peekedHeader, hmin, List.take]

/-- C2 (gzip round-trip): a 2xx, non-streaming response with no declared
Content-Encoding whose body carries the gzip magic and decompresses to P
is rewritten to body P, content length the decompressed size, and no
Content-Encoding header. -/
theorem gzip_roundtrip (gunzip : List Nat → Option (List Nat)) (P : List Nat)
    (resp : Response)
    (h2xx : 200 ≤ resp.statusCode ∧ resp.statusCode < 300)
    (hce : resp.headers.contentEncoding = none)
    (hstream : isStreamingResponse resp = false)
    (hmagic : resp.body.take 2 = [0x1F, 0x8B])
    (hgz : gunzip resp.body = some P) :
    (modifyResponse gunzip resp).body = P ∧
    (modifyResponse gunzip resp).contentLength = (P.length : Int) ∧
    (modifyResponse gunzip resp).headers.contentEncoding = none := by
  unfold modifyResponse
  rw [if_neg (by omega), if_neg (by simp [respContentEncoding, hce]),
      if_neg (by simp [hstream]), if_pos ((gzipMagicDetected_iff resp.body).mpr hmagic),
      peeked_append, hgz]
  exact ⟨rfl, rfl, rfl⟩

/-- Upstream response of the round-trip witness: 200, no headers, body the
gzip encoding of the empty payload as produced by the Go gzip writer. -/
def gzipEmptyBytes : List Nat :=
  [0x1F, 0x8B, 8, 0, 0, 0, 0, 0, 0, 255, 3, 0, 0, 0, 0, 0, 0, 0, 0, 0]

/-- Concrete stand-in for the standard library gzip decoder on the inputs of
the witnesses: decodes the empty-payload stream, fails elsewhere. -/
def gunzipDemo : List Nat → Option (List Nat) := fun b =>
  if b = gzipEmptyBytes then some [] else none

/-- A 200 response carrying the gzip-compressed empty payload with no
headers at all. -/
def gzipUpstreamResp : Response :=
  { statusCode := 200, headers := {}, body := gzipEmptyBytes, contentLength := 20 }

/-- Witness for C2 on a concrete compressed response. -/
theorem gzip_roundtrip_witness :
    (modifyResponse gunzipDemo gzipUpstreamResp).body = [] ∧
    (modifyResponse gunzipDemo gzipUpstreamResp).contentLength = 0 ∧
    (modifyResponse gunzipDemo gzipUpstreamResp).headers.contentEncoding = none := by
  have h := gzip_roundtrip gunzipDemo [] gzipUpstreamResp
    (by decide) (by decide) (by decide) (by decide) (by decide)
  exact ⟨h.1, h.2.1, h.2.2⟩

/-- C4 (truncation and corruption safety): a 2xx, non-streaming,
no-Content-Encoding response whose body has the gzip magic but fails
decompression is forwarded completely unchanged. -/
theorem corrupt_gzip_passthrough (gunzip : List Nat → Option (List Nat))
    (resp : Response)
    (h2xx : 200 ≤ resp.statusCode ∧ resp.statusCode < 300)
    (hce : resp.headers.contentEncoding = none)
    (hstream : isStreamingResponse resp = false)
    (hmagic : resp.body.take 2 = [0x1F, 0x8B])
    (hfail : gunzip resp.body = none) :
    modifyResponse gunzip resp = resp := by
  unfold modifyResponse
  rw [if_neg (by omega), if_neg (by simp [respContentEncoding, hce]),
      if_neg (by simp [hstream]), if_pos ((gzipMagicDetected_iff resp.body).mpr hmagic),
      peeked_append, hfail]

/-- A 200 response whose body starts with the gzip magic but is not a valid
stream. -/
def corruptResp : Response :=
  { statusCode := 200, headers := {}, body := [0x1F, 0x8B, 1, 2, 3], contentLength := 5 }

/-- Witness for C4 on a concrete corrupt body. -/
theorem corrupt_gzip_passthrough_witness :
    modifyResponse gunzipDemo corruptResp = corruptResp :=
  corrupt_gzip_passthrough gunzipDemo corruptResp
    (by decide) (by decide) (by decide) (by decide) (by decide)

/-- C8 (small-body and non-gzip safety): a 2xx, non-streaming,
no-Content-Encoding response whose body is shorter than two bytes or does
not start with the gzip magic is reconstructed from the peeked bytes and
the remainder, leaving it unchanged. -/
theorem small_or_nongzip_passthrough (gunzip : List Nat → Option (List Nat))
    (resp : Response)
    (h2xx : 200 ≤ resp.statusCode ∧ resp.statusCode < 300)
    (hce : resp.headers.contentEncoding = none)
    (hstream : isStreamingResponse resp = false)
    (hnot : resp.body.length < 2 ∨ resp.body.take 2 ≠ [0x1F, 0x8B]) :
    modifyResponse gunzip resp = resp := by
  have hmd : ¬ (gzipMagicDetected resp.body = true) := by
    rw [gzipMagicDetected_iff]
    rcases hnot with h | h
    · intro htake
      have hlen := congrArg List.length htake
      simp [List.length_take] at hlen
      omega
    · exact h
  unfold modifyResponse
  rw [if_neg (by omega), if_neg (by simp [respContentEncoding, hce]),
      if_neg (by simp [hstream]), if_neg hmd, peeked_append]

/-- A 200 response whose body is the single byte 0x1F. -/
def loneByteResp : Response :=
  { statusCode := 200, headers := {}, body := [0x1F], contentLength := 1 }

/-- Witness for C8 on a concrete one-byte body. -/
theorem small_or_nongzip_passthrough_witness :
    modifyResponse gunzipDemo loneByteResp = loneByteResp :=
  small_or_nongzip_passthrough gunzipDemo loneByteResp
    (by decide) (by decide) (by decide) (Or.inl (by decide))

/-- C1 (amended, streaming exemption): a response whose Content-Type
contains the lowercase marker text/event-stream, or whose lowercased
Transfer-Encoding contains chunked, is classified streaming and passes
through the normalizer completely unchanged, whatever the gzip codec
would do with its body. -/
theorem streaming_passthrough (gunzip : List Nat → Option (List Nat))
    (resp : Response)
    (h : goContains resp.headers.contentType "text/event-stream" = true ∨
         goContains (goToLower resp.headers.transferEncoding) "chunked" = true) :
    isStreamingResponse resp = true ∧ modifyResponse gunzip resp = resp := by
  have hs : isStreamingResponse resp = true := by
    unfold isStreamingResponse
    split_ifs with h1 h2 <;> simp_all
  refine ⟨hs, ?_⟩
  unfold modifyResponse
  split_ifs with h1 h2 <;> rfl

/-- A 200 server-sent-events response whose body happens to be valid gzip. -/
def sseResp : Response :=
  { statusCode := 200, headers := { contentType := "text/event-stream" },
    body := gzipEmptyBytes, contentLength := 20 }

/-- Witness for the amended C1 on a concrete event-stream response. -/
theorem streaming_passthrough_witness :
    isStreamingResponse sseResp = true ∧ modifyResponse gunzipDemo sseResp = sseResp :=
  streaming_passthrough gunzipDemo sseResp (Or.inl (by decide))

/-- The same response with the content type in upper case. -/
def sseUpperResp : Response :=
  { statusCode := 200, headers := { contentType := "TEXT/EVENT-STREAM" },
    body := gzipEmptyBytes, contentLength := 20 }

/-- Counterexample to C1 as stated: the content-type match of
isStreamingResponse is case-sensitive, so an upper-case event-stream
content type is not classified streaming, and the normalizer decompresses
its gzip body instead of passing it through unchanged. -/
theorem isStreamingResponse_case_sensitive_cex :
    isStreamingResponse sseUpperResp = false ∧
    modifyResponse gunzipDemo sseUpperResp ≠ sseUpperResp ∧
    (modifyResponse gunzipDemo sseUpperResp).body = [] := by decide

/-- The ModifyResponse revision that peeks through a tee duplicates every
byte after the first two when it reassembles the compressed stream, shown
here on a concrete magic-prefixed body: the reassembled (and, on failure,
forwarded) bytes are the body followed again by its tail. -/
theorem modifyResponseTee_tail_duplication :
    (modifyResponseTee (fun _ => none) corruptResp).body
      = corruptResp.body ++ corruptResp.body.drop 2 := by decide

/-! ## Theorems: outbound director -/

/-- Removing one key from a header list leaves lookups of other keys
unchanged. -/
theorem hGet_hRemove (hs : List (String × String)) (k k' : String) (h : k' ≠ k) :
    hGet (hRemove hs k) k' = hGet hs k' := by
  induction hs with
  | nil => rfl
  | cons p rest ih =>
    obtain ⟨k0, v⟩ := p
    by_cases h0 : k0 = k
    · simp only [hRemove, if_pos h0, hGet, ih]
      rw [if_neg (fun h1 => h (h1.symm.trans h0))]
    · simp only [hRemove, if_neg h0, hGet, ih]

/-- Setting a header makes its own lookup return the new value. -/
theorem hGet_hSet_self (hs : List (String × String)) (k v : String) :
    hGet (hSet hs k v) k = some v := by
  simp [hSet, hGet]

/-- Setting a header leaves lookups of other keys unchanged. -/
theorem hGet_hSet_other (hs : List (String × String)) (k v k' : String) (h : k' ≠ k) :
    hGet (hSet hs k v) k' = hGet hs k' := by
  simp only [hSet, hGet]
  rw [if_neg (fun hh => h hh.symm), hGet_hRemove hs k k' h]

/-- C5: a successful nonempty credential k makes the director set the
raw-key header to k and the authorization header to Bearer k; an empty
credential or a resolver error leaves the request headers exactly as they
were (so a header absent before stays absent), and the request is still
redirected to the upstream host. -/
theorem director_credential_injection (parsedHost : String)
    (secretGet : Except String String) (req : Request) :
    (∀ k, secretGet = Except.ok k → k ≠ "" →
      hGet (director parsedHost secretGet req).headers "X-Api-Key" = some k ∧
      hGet (director parsedHost secretGet req).headers "Authorization"
        = some ("Bearer " ++ k)) ∧
    ((secretGet = Except.ok "" ∨ ∃ e, secretGet = Except.error e) →
      (director parsedHost secretGet req).headers = req.headers ∧
      (director parsedHost secretGet req).host = parsedHost) := by
  constructor
  · rintro k rfl hk
    simp only [director]
    rw [if_pos hk]
    constructor
    · rw [hGet_hSet_other _ _ _ _ (by decide), hGet_hSet_self]
    · rw [hGet_hSet_self]
  · rintro (rfl | ⟨e, rfl⟩) <;> exact ⟨rfl, rfl⟩

/-- A client request with no headers at all. -/
def clientReq : Request := { host := "client.example", headers := [] }

/-- Witness for C5: headers injected for a concrete nonempty secret, and no
header appears when the resolver errors. -/
theorem director_credential_injection_witness :
    hGet (director "amp.example" (Except.ok "s3cr3t") clientReq).headers "X-Api-Key"
      = some "s3cr3t" ∧
    hGet (director "amp.example" (Except.ok "s3cr3t") clientReq).headers "Authorization"
      = some ("Bearer " ++ "s3cr3t") ∧
    (director "amp.example" (Except.error "io failure") clientReq).headers = [] := by
  have h1 := (director_credential_injection "amp.example" (Except.ok "s3cr3t")
    clientReq).1 "s3cr3t" rfl (by decide)
  have h2 := (director_credential_injection "amp.example" (Except.error "io failure")
    clientReq).2 (Or.inr ⟨"io failure", rfl⟩)
  exact ⟨h1.1, h1.2, h2.1⟩

/-! ## Theorems: proxy construction and lifecycle -/

/-- Counterexample to C3 as stated: the address foo is not a well-formed
absolute URL, yet createReverseProxy accepts it, because url.Parse accepts
relative and scheme-less references. -/
theorem createReverseProxy_nonabsolute_accepted_cex :
    isAbsoluteURL "foo" = false ∧ createOk (createReverseProxy "foo") = true := by
  decide

/-- C3 (amended): createReverseProxy fails exactly when url.Parse rejects
the address; parseable non-absolute addresses are accepted. -/
theorem createReverseProxy_error_iff_parse_failure (upstreamURL : String) :
    createOk (createReverseProxy upstreamURL) = true
      ↔ (parseURL upstreamURL).isSome = true := by
  unfold createReverseProxy createOk
  cases parseURL upstreamURL <;> simp

/-- C9: with a blank configured address Register disables the module and
succeeds with no routes; with a nonempty address whose proxy construction
fails it returns the wrapped error, registers no routes and leaves the
enabled flag untouched; on success it enables the module and registers
both route groups. -/
theorem register_lifecycle (m : AmpModule) (cfg : Config) :
    (goTrimSpace cfg.ampUpstreamURL = "" →
      Register m cfg = ({ m with enabled := false }, [], none)) ∧
    (∀ e, goTrimSpace cfg.ampUpstreamURL ≠ "" →
      createReverseProxy (goTrimSpace cfg.ampUpstreamURL) = Except.error e →
      Register m cfg = ({ m with secretSource := some cfg.ampUpstreamAPIKey }, [],
        some ("failed to create amp proxy: " ++ e)) ∧
      (Register m cfg).1.enabled = m.enabled) ∧
    (∀ parsed, goTrimSpace cfg.ampUpstreamURL ≠ "" →
      createReverseProxy (goTrimSpace cfg.ampUpstreamURL) = Except.ok parsed →
      Register m cfg
        = ({ m with
               secretSource := some cfg.ampUpstreamAPIKey,
               proxy := some parsed,
               enabled := true },
           [RouteGroup.management, RouteGroup.providerAliases], none)) := by
  refine ⟨?_, ?_, ?_⟩
  · intro h
    simp only [Register]
    rw [if_pos h]
  · intro e h1 h2
    simp only [Register]
    rw [if_neg h1, h2]
    exact ⟨rfl, rfl⟩
  · intro parsed h1 h2
    simp only [Register]
    rw [if_neg h1, h2]

/-- Configuration with a whitespace-only upstream address. -/
def cfgBlank : Config := { ampUpstreamURL := "   ", ampUpstreamAPIKey := "k" }

/-- Configuration with an unparsable upstream address, as in the repository
test for the invalid-URL path. -/
def cfgBad : Config := { ampUpstreamURL := "://invalid", ampUpstreamAPIKey := "k" }

/-- Configuration with a valid absolute upstream address. -/
def cfgGood : Config := { ampUpstreamURL := "http://example.com", ampUpstreamAPIKey := "k" }

/-- The parsed form of the valid upstream address. -/
def exampleURL : GoURL := { scheme := "http", host := "example.com" }

/-- Witness for C9 on the three concrete configurations. -/
theorem register_lifecycle_witness :
    Register ampNew cfgBlank = ({ ampNew with enabled := false }, [], none) ∧
    Register ampNew cfgBad = ({ ampNew with secretSource := some "k" }, [],
      some ("failed to create amp proxy: " ++ "invalid amp upstream url")) ∧
    Register ampNew cfgGood
      = ({ ampNew with
             secretSource := some "k",
             proxy := some exampleURL,
             enabled := true },
         [RouteGroup.management, RouteGroup.providerAliases], none) := by
  have h1 := (register_lifecycle ampNew cfgBlank).1 (by decide)
  have h2 := ((register_lifecycle ampNew cfgBad).2.1 "invalid amp upstream url"
    (by decide) (by rfl)).1
  have h3 := (register_lifecycle ampNew cfgGood).2.2 exampleURL (by decide) (by rfl)
  exact ⟨h1, h2, h3⟩
